import Mathlib

/-!
Verification of the session / CSRF / signed-cookie layer of the ntumiwa
repository, as a shallow embedding in Lean.

Byte strings (Go `string` / `[]byte`) are `List Nat` with entries < 256.
Machine words are `Nat` reduced modulo 2^32 where the Go code uses `uint32`.
Time is `Int` (Go `time.Time` / `time.Duration` comparisons are signed).
Randomness (`crypto/rand`) is modelled as a counter threaded through the
operations; each draw yields a 32-byte value derived injectively from the
counter (the model of an ideal CSPRNG: fresh draws are fresh values).
-/

namespace Ntumiwa

abbrev Bytes := List Nat

/-- Reduce to a 32-bit word, the implicit wrap-around of Go `uint32`. -/
def w32 (n : Nat) : Nat := n % 4294967296

/-- Right rotation of a 32-bit word by `n` bits. -/
def rotr (n x : Nat) : Nat := (x / 2 ^ n) + (x % 2 ^ n) * 2 ^ (32 - n)

/-- Logical right shift of a 32-bit word by `n` bits. -/
def shr (n x : Nat) : Nat := x / 2 ^ n

def bigSigma0 (x : Nat) : Nat := Nat.xor (rotr 2 x) (Nat.xor (rotr 13 x) (rotr 22 x))

def bigSigma1 (x : Nat) : Nat := Nat.xor (rotr 6 x) (Nat.xor (rotr 11 x) (rotr 25 x))

def smallSigma0 (x : Nat) : Nat := Nat.xor (rotr 7 x) (Nat.xor (rotr 18 x) (shr 3 x))

def smallSigma1 (x : Nat) : Nat := Nat.xor (rotr 17 x) (Nat.xor (rotr 19 x) (shr 10 x))

/-- SHA-256 choice function: `(x AND y) XOR ((NOT x) AND z)`. -/
def chF (x y z : Nat) : Nat := Nat.xor (Nat.land x y) (Nat.land (Nat.xor x 4294967295) z)

/-- SHA-256 majority function. -/
def majF (x y z : Nat) : Nat := Nat.xor (Nat.land x y) (Nat.xor (Nat.land x z) (Nat.land y z))

/-- The 64 SHA-256 round constants (FIPS 180-4, written in decimal). -/
def shaK : List Nat :=
  [1116352408, 1899447441, 3049323471, 3921009573, 961987163,
   1508970993, 2453635748, 2870763221, 3624381080, 310598401,
   607225278, 1426881987, 1925078388, 2162078206, 2614888103,
   3248222580, 3835390401, 4022224774, 264347078, 604807628,
   770255983, 1249150122, 1555081692, 1996064986, 2554220882,
   2821834349, 2952996808, 3210313671, 3336571891, 3584528711,
   113926993, 338241895, 666307205, 773529912, 1294757372,
   1396182291, 1695183700, 1986661051, 2177026350, 2456956037,
   2730485921, 2820302411, 3259730800, 3345764771, 3516065817,
   3600352804, 4094571909, 275423344, 430227734, 506948616,
   659060556, 883997877, 958139571, 1322822218, 1537002063,
   1747873779, 1955562222, 2024104815, 2227730452, 2361852424,
   2428436474, 2756734187, 3204031479, 3329325298]

/-- Big-endian rendering of `n` into exactly `k` bytes. -/
def beBytes : Nat → Nat → Bytes
  | 0, _ => []
  | k + 1, n => beBytes k (n / 256) ++ [n % 256]

/-- SHA-256 message padding: `0x80`, zeros to 56 mod 64, 8-byte bit length. -/
def sha256Pad (msg : Bytes) : Bytes :=
  msg ++ [128] ++ List.replicate ((119 - msg.length % 64) % 64) 0 ++ beBytes 8 (8 * msg.length)

/-- Split a byte string into consecutive 64-byte blocks. The fuel argument is
the list length, always sufficient since each step consumes 64 bytes. -/
def chunks64Go : Nat → Bytes → List Bytes
  | 0, _ => []
  | _ + 1, [] => []
  | fuel + 1, l => (l.take 64) :: chunks64Go fuel (l.drop 64)

def chunks64 (l : Bytes) : List Bytes := chunks64Go l.length l

/-- Big-endian 32-bit words from a byte string. -/
def bytesToWords : Bytes → List Nat
  | b0 :: b1 :: b2 :: b3 :: rest => (((b0 * 256 + b1) * 256 + b2) * 256 + b3) :: bytesToWords rest
  | _ => []

/-- One message-schedule extension step: append `w[t]` computed from the tail. -/
def scheduleStep (w : List Nat) : List Nat :=
  w ++ [w32 (smallSigma1 (w.getD (w.length - 2) 0) + w.getD (w.length - 7) 0 +
             smallSigma0 (w.getD (w.length - 15) 0) + w.getD (w.length - 16) 0)]

/-- Iterate the schedule extension `k` times. -/
def fullSchedule : Nat → List Nat → List Nat
  | 0, w => w
  | k + 1, w => fullSchedule k (scheduleStep w)

/-- The eight 32-bit working variables of SHA-256. -/
structure Hash8 where
  a : Nat
  b : Nat
  c : Nat
  d : Nat
  e : Nat
  f : Nat
  g : Nat
  h : Nat
deriving Repr, DecidableEq

/-- One SHA-256 compression round; `kw` is `K[t] + W[t]`. -/
def shaRound (s : Hash8) (kw : Nat) : Hash8 :=
  let t1 := w32 (s.h + bigSigma1 s.e + chF s.e s.f s.g + kw)
  let t2 := w32 (bigSigma0 s.a + majF s.a s.b s.c)
  ⟨w32 (t1 + t2), s.a, s.b, s.c, w32 (s.d + t1), s.e, s.f, s.g⟩

/-- SHA-256 initial hash value. -/
def shaInit : Hash8 :=
  ⟨1779033703, 3144134277, 1013904242, 2773480762,
   1359893119, 2600822924, 528734635, 1541459225⟩

/-- Compress one 64-byte block into the running hash state. -/
def compressBlock (s : Hash8) (block : Bytes) : Hash8 :=
  let w := fullSchedule 48 (bytesToWords block)
  let kw := List.zipWith (fun k wi => w32 (k + wi)) shaK w
  let t := kw.foldl shaRound s
  ⟨w32 (s.a + t.a), w32 (s.b + t.b), w32 (s.c + t.c), w32 (s.d + t.d),
   w32 (s.e + t.e), w32 (s.f + t.f), w32 (s.g + t.g), w32 (s.h + t.h)⟩

/-- Serialize the final state to the 32-byte digest. -/
def digestBytes (s : Hash8) : Bytes :=
  beBytes 4 s.a ++ beBytes 4 s.b ++ beBytes 4 s.c ++ beBytes 4 s.d ++
  beBytes 4 s.e ++ beBytes 4 s.f ++ beBytes 4 s.g ++ beBytes 4 s.h

/-- SHA-256 of a byte string (`crypto/sha256`). -/
def sha256 (msg : Bytes) : Bytes :=
  digestBytes ((chunks64 (sha256Pad msg)).foldl compressBlock shaInit)

/-- Pad (or hash, if over the 64-byte block size) a key to exactly 64 bytes. -/
def blockSizedKey (key : Bytes) : Bytes :=
  let k0 := if key.length > 64 then sha256 key else key
  k0 ++ List.replicate (64 - k0.length) 0

/-- HMAC-SHA256 (`crypto/hmac` instantiated with `sha256.New`). -/
def hmacSHA256 (key msg : Bytes) : Bytes :=
  let k := blockSizedKey key
  sha256 ((k.map (fun b => Nat.xor b 92)) ++ sha256 ((k.map (fun b => Nat.xor b 54)) ++ msg))

/-! ## base64url (Go `encoding/base64` `URLEncoding`, padded with 61, the code of the equals sign) -/

/-- The base64url alphabet, as a map from a sextet to its character code. -/
def sextetToChar (s : Nat) : Nat :=
  if s < 26 then 65 + s
  else if s < 52 then 97 + (s - 26)
  else if s < 62 then 48 + (s - 52)
  else if s = 62 then 45
  else 95

/-- Inverse of the alphabet map; `none` on a character outside the alphabet
(including the padding character). -/
def charToSextet (c : Nat) : Option Nat :=
  if 65 ≤ c ∧ c ≤ 90 then some (c - 65)
  else if 97 ≤ c ∧ c ≤ 122 then some (26 + (c - 97))
  else if 48 ≤ c ∧ c ≤ 57 then some (52 + (c - 48))
  else if c = 45 then some 62
  else if c = 95 then some 63
  else none

/-- base64url-encode a byte string, padding the final group with 61. -/
def b64encode : Bytes → Bytes
  | [] => []
  | [b0] => [sextetToChar (b0 / 4), sextetToChar (b0 % 4 * 16), 61, 61]
  | [b0, b1] =>
      [sextetToChar (b0 / 4), sextetToChar (b0 % 4 * 16 + b1 / 16), sextetToChar (b1 % 16 * 4), 61]
  | b0 :: b1 :: b2 :: rest =>
      sextetToChar (b0 / 4) :: sextetToChar (b0 % 4 * 16 + b1 / 16) ::
      sextetToChar (b1 % 16 * 4 + b2 / 64) :: sextetToChar (b2 % 64) :: b64encode rest

/-- base64url-decode; `none` on a length that is not a multiple of four, a
character outside the alphabet, misplaced padding, or data after padding. -/
def b64decode : Bytes → Option Bytes
  | [] => some []
  | c0 :: c1 :: c2 :: c3 :: rest =>
      match charToSextet c0, charToSextet c1 with
      | some s0, some s1 =>
        if c2 = 61 then
          if c3 = 61 ∧ rest = [] then some [s0 * 4 + s1 / 16] else none
        else
          match charToSextet c2 with
          | some s2 =>
            if c3 = 61 then
              if rest = [] then some [s0 * 4 + s1 / 16, s1 % 16 * 16 + s2 / 4] else none
            else
              match charToSextet c3 with
              | some s3 =>
                match b64decode rest with
                | some tail =>
                    some ((s0 * 4 + s1 / 16) :: (s1 % 16 * 16 + s2 / 4) :: (s2 % 4 * 64 + s3) :: tail)
                | none => none
              | none => none
          | none => none
      | _, _ => none
  | _ => none

/-! ## Signed cookie codec (`internal/cookies`: `Write`, `Read`, `WriteSigned`, `ReadSigned`) -/

/-- The error values of the cookies package. `noCookie` stands for the
`http.ErrNoCookie` error that `r.Cookie(name)` yields when the named cookie is
absent and that `Read` passes through unchanged. -/
inductive CookieErr
  | noCookie
  | invalidValue
  | valueTooLong
deriving Repr, DecidableEq

/-- Length of the serialized `cookie.String()` form checked against the
4096-byte ceiling: the name, the equals sign, the encoded value, and the
serialized attribute tail (`Domain`, `Path`, `Expires`, flags), whose length
`attrsLen` does not depend on the value and is a parameter of the model. -/
def cookieStringLen (name encValue : Bytes) (attrsLen : Nat) : Nat :=
  name.length + 1 + encValue.length + attrsLen

/-- `cookies.Write`: base64url-encode the value, reject a serialized cookie
over 4096 bytes with `ErrValueTooLong`, otherwise emit the encoded value. -/
def cookieWrite (name value : Bytes) (attrsLen : Nat) : Except CookieErr Bytes :=
  let enc := b64encode value
  if cookieStringLen name enc attrsLen > 4096 then .error .valueTooLong
  else .ok enc

/-- `cookies.Read`: look up the named cookie (its text, when present, is the
`cookie` argument), then base64url-decode, turning a decode failure into
`ErrInvalidValue`. -/
def cookieRead (cookie : Option Bytes) : Except CookieErr Bytes :=
  match cookie with
  | none => .error .noCookie
  | some text =>
    match b64decode text with
    | none => .error .invalidValue
    | some v => .ok v

/-- `cookies.WriteSigned`: prepend the HMAC-SHA256 of name-then-value to the
value and write the result. -/
def writeSigned (name value key : Bytes) (attrsLen : Nat) : Except CookieErr Bytes :=
  cookieWrite name (hmacSHA256 key (name ++ value) ++ value) attrsLen

/-- `cookies.ReadSigned`: read and decode, require at least the 32 bytes of a
SHA-256 signature, split the signature prefix off, recompute the expected
signature over name-then-payload, and compare (`hmac.Equal` is a
constant-time comparison; functionally it is equality of the byte strings). -/
def readSigned (name : Bytes) (cookie : Option Bytes) (key : Bytes) : Except CookieErr Bytes :=
  match cookieRead cookie with
  | .error e => .error e
  | .ok signedValue =>
    if signedValue.length < 32 then .error .invalidValue
    else
      let signature := signedValue.take 32
      let value := signedValue.drop 32
      if signature ≠ hmacSHA256 key (name ++ value) then .error .invalidValue
      else .ok value

/-! ## Session entity (`internal/session`, `Session`, `NewSession`, `Get`, `Put`, `Delete`) -/

/-- A value stored in a session's `data` map (Go `map[string]any`; the session
layer only ever stores booleans and strings). -/
inductive SVal
  | vb : Bool → SVal
  | vs : Bytes → SVal
deriving Repr, DecidableEq

/-- Association-list model of the Go map held in `Session.data`. -/
def mapGet (d : List (String × SVal)) (k : String) : Option SVal :=
  match d.find? (fun p => p.1 == k) with
  | some p => some p.2
  | none => none

def mapPut (d : List (String × SVal)) (k : String) (v : SVal) : List (String × SVal) :=
  (k, v) :: d.filter (fun p => !(p.1 == k))

def mapDel (d : List (String × SVal)) (k : String) : List (String × SVal) :=
  d.filter (fun p => !(p.1 == k))

structure Session where
  id : Bytes
  data : List (String × SVal)
  createdAt : Int
  lastActivityAt : Int
deriving Repr, DecidableEq

/-- `Session.Get`: map lookup; a missing key is Go `nil`, modelled as `none`. -/
def Session.Get (s : Session) (key : String) : Option SVal := mapGet s.data key

/-- `Session.Put`: map store. -/
def Session.Put (s : Session) (key : String) (v : SVal) : Session :=
  { s with data := mapPut s.data key v }

/-- `Session.Delete`: map delete. -/
def Session.Delete (s : Session) (key : String) : Session :=
  { s with data := mapDel s.data key }

/-- Little-endian rendering of `n` into exactly `k` bytes. -/
def natToBytesLE : Nat → Nat → Bytes
  | 0, _ => []
  | k + 1, n => n % 256 :: natToBytesLE k (n / 256)

/-- Model of one 32-byte draw from `crypto/rand` (`generateSessionID` and
`generateCSRFToken` both read 32 random bytes): the draw is derived from the
current value of the random counter threaded through the operations. -/
def freshBytes (r : Nat) : Bytes := natToBytesLE 32 r

/-- `NewSession`: fresh random id, `authenticated=false`, fresh CSRF token,
both timestamps now. Returns the advanced random counter (two draws). -/
def NewSession (now : Int) (r : Nat) : Session × Nat :=
  ({ id := freshBytes r,
     data := [("authenticated", SVal.vb false), ("csrf_token", SVal.vs (freshBytes (r + 1)))],
     createdAt := now, lastActivityAt := now }, r + 2)

/-! ## Session store (`internal/session/store.go`, `InMemorySessionStore`) -/

/-- The errors the in-memory store reports (both are `fmt.Errorf` values in
Go, distinguished here by their message shape). -/
inductive StoreErr
  | couldNotFind : Bytes → StoreErr
  | cannotDestroyNonexistent : Bytes → StoreErr
deriving Repr, DecidableEq

/-- The store's map from session id to session. Go holds `*Session` pointers;
the model passes session values explicitly, with the manager writing the
current value back on `save`, which observes the same states. -/
abbrev Store := List (Bytes × Session)

namespace SessionStore

/-- `InMemorySessionStore.read`. -/
def read (st : Store) (id : Bytes) : Except StoreErr Session :=
  match st.find? (fun p => p.1 == id) with
  | some p => .ok p.2
  | none => .error (.couldNotFind id)

/-- `InMemorySessionStore.write`: upsert keyed by `session.id`. The new
binding replaces any previous binding of the same id (Go map assignment). -/
def write (st : Store) (sess : Session) : Store :=
  (sess.id, sess) :: st.filter (fun p => !(p.1 == sess.id))

/-- `InMemorySessionStore.destroy`: error on a nonexistent id, otherwise
remove the binding. -/
def destroy (st : Store) (id : Bytes) : Except StoreErr Store :=
  if st.any (fun p => p.1 == id) then .ok (st.filter (fun p => !(p.1 == id)))
  else .error (.cannotDestroyNonexistent id)

/-- `InMemorySessionStore.gc`: drop every session whose idle time exceeds
`tti` or whose age exceeds `ttl`. -/
def gc (st : Store) (now tti ttl : Int) : Store :=
  st.filter (fun p =>
    !(decide (now - p.2.lastActivityAt > tti) || decide (now - p.2.createdAt > ttl)))

end SessionStore

/-! ## Session manager (`internal/session/manager.go`) -/

structure SessionManager where
  absoluteExpiration : Int
  idleExpiration : Int
  domain : Bytes
  cookieName : Bytes
  secretKey : Bytes
  attrsLen : Nat
deriving Repr, DecidableEq

/-- `SessionManager.validate`: false (after synchronously destroying the
session in the store) when the absolute or idle expiration is exceeded, true
otherwise. A failed destroy is a Go `panic(err)`, modelled as `.error ()`. -/
def validate (m : SessionManager) (st : Store) (sess : Session) (now : Int) :
    Except Unit (Bool × Store) :=
  if now - sess.createdAt > m.absoluteExpiration ∨
     now - sess.lastActivityAt > m.idleExpiration then
    match SessionStore.destroy st sess.id with
    | .error _ => .error ()
    | .ok st' => .ok (false, st')
  else .ok (true, st)

/-- `SessionManager.start`: resolve the inbound session from the signed
cookie, degrade every failure to minting a fresh anonymous session. -/
def start (m : SessionManager) (st : Store) (cookie : Option Bytes) (now : Int) (r : Nat) :
    Except Unit (Session × Store × Nat) :=
  match readSigned m.cookieName cookie m.secretKey with
  | .error _ =>
      let minted := NewSession now r
      .ok (minted.1, st, minted.2)
  | .ok cookieValue =>
      match SessionStore.read st cookieValue with
      | .error _ =>
          let minted := NewSession now r
          .ok (minted.1, st, minted.2)
      | .ok sess =>
          match validate m st sess now with
          | .error e => .error e
          | .ok (true, st') => .ok (sess, st', r)
          | .ok (false, st') =>
              let minted := NewSession now r
              .ok (minted.1, st', minted.2)

/-- `SessionManager.save`: touch `lastActivityAt`, write to the store. -/
def save (st : Store) (sess : Session) (now : Int) : Session × Store :=
  let sess' := { sess with lastActivityAt := now }
  (sess', SessionStore.write st sess')

/-- `SessionManager.Migrate`: destroy the old binding (propagating a destroy
error before any mutation), then rotate the id and the CSRF token. The
caller is expected to persist via `save`. -/
def Migrate (st : Store) (sess : Session) (r : Nat) :
    Except StoreErr (Store × Session × Nat) :=
  match SessionStore.destroy st sess.id with
  | .error e => .error e
  | .ok st' =>
      let sess' :=
        Session.Put { sess with id := freshBytes r } "csrf_token" (SVal.vs (freshBytes (r + 1)))
      .ok (st', sess', r + 2)

/-- `auth.Login`: migrate, then mark authenticated and bind the username. -/
def Login (st : Store) (sess : Session) (username : Bytes) (r : Nat) :
    Except StoreErr (Store × Session × Nat) :=
  match Migrate st sess r with
  | .error e => .error e
  | .ok (st', sess', r') =>
      .ok (st', Session.Put (Session.Put sess' "authenticated" (SVal.vb true))
                  "username" (SVal.vs username), r')

/-- `auth.Logout`: migrate, then mark unauthenticated and drop the username. -/
def Logout (st : Store) (sess : Session) (r : Nat) :
    Except StoreErr (Store × Session × Nat) :=
  match Migrate st sess r with
  | .error e => .error e
  | .ok (st', sess', r') =>
      .ok (st', Session.Delete (Session.Put sess' "authenticated" (SVal.vb false))
                  "username", r')

/-! ## HTTP response model and the session middleware
(`internal/session/manager.go` `Middleware`, `WriteCookie`, `verifyCSRFToken`;
the `sessionWriter` response-writer wrapper) -/

/-- Bytes of a Go string literal (every literal the session layer uses is
ASCII, where the UTF-8 bytes are the character codes). -/
def strBytes (s : String) : Bytes := s.data.map (fun c => c.toNat)

/-- Model of `net/http`'s response writer: a pending header map being built,
the headers and status actually flushed by the first `WriteHeader`/`Write`
(later mutations of the header map are not part of the wire response), and a
count of body writes. -/
structure RawResponse where
  pending : List (String × Bytes)
  sent : Option (List (String × Bytes) × Nat)
  bodyWrites : Nat
deriving Repr, DecidableEq

def emptyResponse : RawResponse := { pending := [], sent := none, bodyWrites := 0 }

/-- `Header().Add`: append, keeping earlier values of the same key. -/
def addHeader (resp : RawResponse) (k : String) (v : Bytes) : RawResponse :=
  { resp with pending := resp.pending ++ [(k, v)] }

/-- `Header().Set`: replace every value of the key. -/
def setHeader (resp : RawResponse) (k : String) (v : Bytes) : RawResponse :=
  { resp with pending := resp.pending.filter (fun p => !(p.1 == k)) ++ [(k, v)] }

/-- First `WriteHeader` wins: snapshot the pending headers and the status
code; a second call is ignored (Go logs a superfluous-call warning). -/
def flushHeaders (resp : RawResponse) (code : Nat) : RawResponse :=
  match resp.sent with
  | some _ => resp
  | none => { resp with sent := some (resp.pending, code) }

def rawWriteHeader (resp : RawResponse) (code : Nat) : RawResponse :=
  flushHeaders resp code

/-- A body write flushes the headers with status 200 first if none were sent. -/
def rawWrite (resp : RawResponse) : RawResponse :=
  let resp := flushHeaders resp 200
  { resp with bodyWrites := resp.bodyWrites + 1 }

/-- End of the request: if the handler chain never wrote anything, `net/http`
sends the headers with an implicit 200. -/
def finalizeResponse (resp : RawResponse) : RawResponse := flushHeaders resp 200

/-- The headers actually present on the wire response. -/
def sentHeaders (resp : RawResponse) : List (String × Bytes) :=
  match resp.sent with
  | some (hs, _) => hs
  | none => []

/-- The status actually present on the wire response. -/
def sentStatus (resp : RawResponse) : Option Nat :=
  match resp.sent with
  | some (_, code) => some code
  | none => none

/-- Number of occurrences of a header key. -/
def countHeader (hs : List (String × Bytes)) (k : String) : Nat :=
  (hs.filter (fun p => p.1 == k)).length

/-- `http.Error`: set `Content-Type` and `X-Content-Type-Options`, write the
status, write the message body. (The `Content-Length` delete has no
counterpart in the model, which carries no such header.) -/
def httpError (resp : RawResponse) (code : Nat) : RawResponse :=
  rawWrite (rawWriteHeader
    (setHeader (setHeader resp "Content-Type" (strBytes "text/plain; charset=utf-8"))
      "X-Content-Type-Options" (strBytes "nosniff")) code)

/-- `SessionManager.WriteCookie`: build the session cookie carrying the raw
session id and write it signed; a codec failure is a Go panic, modelled as
`.error ()`. On success the `Set-Cookie` header carries the encoded value. -/
def WriteCookie (m : SessionManager) (sess : Session) (resp : RawResponse) :
    Except Unit RawResponse :=
  match writeSigned m.cookieName sess.id m.secretKey m.attrsLen with
  | .error _ => .error ()
  | .ok enc => .ok (addHeader resp "Set-Cookie" enc)

inductive Method
  | mGet
  | mHead
  | mPost
  | mPut
  | mPatch
  | mDelete
  | mOptions
deriving Repr, DecidableEq

/-- The middleware guards exactly POST, PUT, PATCH and DELETE. -/
def isUnsafeMethod : Method → Bool
  | .mPost => true
  | .mPut => true
  | .mPatch => true
  | .mDelete => true
  | _ => false

/-- The parts of an inbound request the session layer reads: the method, the
session cookie's text when present, the `csrf_token` form value (empty bytes
when absent, as Go's `FormValue` yields the empty string) and the
`X-CSRF-Token` request header (likewise empty when absent). -/
structure Request where
  method : Method
  cookie : Option Bytes
  formCSRF : Bytes
  headerCSRF : Bytes
deriving Repr, DecidableEq

/-- `verifyCSRFToken`: false when the session token is missing or not a
string; the submitted token is the form field, falling back to the header;
length mismatch is rejected, then the tokens are compared
(`subtle.ConstantTimeCompare` is equality of equal-length byte strings). -/
def verifyCSRFToken (sess : Session) (req : Request) : Bool :=
  match Session.Get sess "csrf_token" with
  | some (SVal.vs tok) =>
      let rtok := if req.formCSRF = [] then req.headerCSRF else req.formCSRF
      if tok.length ≠ rtok.length then false
      else tok == rtok
  | _ => false

/-- The `sessionWriter` wrapper: the wrapped writer plus the
wrote-cookie-already flag. -/
structure SessionWriter where
  raw : RawResponse
  cookieSet : Bool
deriving Repr, DecidableEq

/-- `sessionWriter.writeCookieOnce`. -/
def writeCookieOnce (m : SessionManager) (sess : Session) (w : SessionWriter) :
    Except Unit SessionWriter :=
  if w.cookieSet then .ok w
  else
    match WriteCookie m sess w.raw with
    | .error e => .error e
    | .ok raw' => .ok { raw := raw', cookieSet := true }

/-- `sessionWriter.WriteHeader`. -/
def SessionWriter.WriteHeader (m : SessionManager) (sess : Session) (w : SessionWriter)
    (code : Nat) : Except Unit SessionWriter :=
  match writeCookieOnce m sess w with
  | .error e => .error e
  | .ok w' => .ok { w' with raw := rawWriteHeader w'.raw code }

/-- `sessionWriter.Write`. -/
def SessionWriter.Write (m : SessionManager) (sess : Session) (w : SessionWriter) :
    Except Unit SessionWriter :=
  match writeCookieOnce m sess w with
  | .error e => .error e
  | .ok w' => .ok { w' with raw := rawWrite w'.raw }

/-- One call the business handler makes on its response writer. The handler
is modelled by the sequence of such calls it performs. -/
inductive HEvent
  | hWrite
  | hWriteHeader : Nat → HEvent
deriving Repr, DecidableEq

/-- Dispatch one handler call to the wrapped writer's method. -/
def handlerStep (m : SessionManager) (sess : Session) (w : SessionWriter) :
    HEvent → Except Unit SessionWriter
  | HEvent.hWrite => SessionWriter.Write m sess w
  | HEvent.hWriteHeader code => SessionWriter.WriteHeader m sess w code

def runHandler (m : SessionManager) (sess : Session) :
    List HEvent → SessionWriter → Except Unit SessionWriter
  | [], w => .ok w
  | e :: es, w =>
      match handlerStep m sess w e with
      | .error err => .error err
      | .ok w' => runHandler m sess es w'

/-- The wrapped writer as the middleware hands it to the handler: `Vary` and
`Cache-Control` added, `X-CSRF-Token` set from the session token, and the
cookie flag unset. -/
def initialWriter (tok : Bytes) : SessionWriter :=
  { raw := setHeader
      (addHeader (addHeader emptyResponse "Vary" (strBytes "Cookie"))
        "Cache-Control" (strBytes "no-cache"))
      "X-CSRF-Token" tok,
    cookieSet := false }

/-- The observable outcome of one request through the session middleware. -/
structure MwOut where
  resp : RawResponse
  handlerCalled : Bool
  sess : Session
  store : Store
  rng : Nat
deriving Repr, DecidableEq

/-- `session.Middleware`: start the session; on an unsafe method reject a
CSRF mismatch with `http.Error(w, _, 403)` on the raw writer and return at
once (no handler, no save, no cookie); otherwise wrap the writer, add
`Vary`/`Cache-Control`, set `X-CSRF-Token` from the session (a non-string
token is a Go panic), run the handler, save the session, and write the
cookie if no handler write already did. -/
def Middleware (m : SessionManager) (st : Store) (req : Request)
    (handler : List HEvent) (now : Int) (r : Nat) : Except Unit MwOut :=
  match start m st req.cookie now r with
  | .error e => .error e
  | .ok (sess, st1, r1) =>
    if isUnsafeMethod req.method ∧ verifyCSRFToken sess req = false then
      .ok { resp := finalizeResponse (httpError emptyResponse 403), handlerCalled := false,
            sess := sess, store := st1, rng := r1 }
    else
      match Session.Get sess "csrf_token" with
      | some (SVal.vs tok) =>
        match runHandler m sess handler (initialWriter tok) with
        | .error e => .error e
        | .ok w1 =>
          let saved := save st1 sess now
          match (if w1.cookieSet then Except.ok w1.raw else WriteCookie m sess w1.raw) with
          | .error e => .error e
          | .ok raw2 =>
              .ok { resp := finalizeResponse raw2, handlerCalled := true,
                    sess := saved.1, store := saved.2, rng := r1 }
      | _ => .error ()

/-! ## Concrete fixtures for evaluating the model on closed inputs -/

def exManager : SessionManager :=
  { absoluteExpiration := 1000000, idleExpiration := 1000, domain := strBytes "ntumiwa.test",
    cookieName := strBytes "session", secretKey := strBytes "super-secret-key", attrsLen := 60 }

def exSession : Session :=
  { id := freshBytes 90,
    data := [("authenticated", SVal.vb true), ("csrf_token", SVal.vs (freshBytes 91)),
             ("username", SVal.vs (strBytes "admin"))],
    createdAt := 0, lastActivityAt := 0 }

def exStore : Store := [(exSession.id, exSession)]

def exPostReq : Request :=
  { method := .mPost, cookie := none, formCSRF := [], headerCSRF := [] }

def exGetReq : Request :=
  { method := .mGet, cookie := none, formCSRF := [], headerCSRF := [] }

def fallbackMwOut : MwOut :=
  { resp := emptyResponse, handlerCalled := false, sess := (NewSession 0 0).1,
    store := [], rng := 0 }

def mw3out : MwOut :=
  (Middleware exManager [] exGetReq [HEvent.hWrite, HEvent.hWrite, HEvent.hWrite]
    0 0).toOption.getD fallbackMwOut

/-- The session-layer data invariant of the spec: a non-empty CSRF token
string and a boolean authenticated flag, both always present. -/
def GoodSession (s : Session) : Prop :=
  (∃ t, mapGet s.data "csrf_token" = some (SVal.vs t) ∧ t ≠ []) ∧
  (∃ b, mapGet s.data "authenticated" = some (SVal.vb b))

/-- Go map invariant of the store: every binding's key is the bound
session's id (maintained by `write`, which keys by `session.id`). -/
def StoreInv (st : Store) : Prop := ∀ p ∈ st, p.1 = p.2.id

/-- Invariant of the `sessionWriter` during the handler's run: once the
cookie flag is set, the pending headers hold exactly one `Set-Cookie` and so
does any flushed snapshot; while the flag is unset, no `Set-Cookie` is
pending and nothing has been flushed. -/
def swInv (w : SessionWriter) : Prop :=
  (w.cookieSet = true → countHeader w.raw.pending "Set-Cookie" = 1 ∧
    (∀ hs code, w.raw.sent = some (hs, code) → countHeader hs "Set-Cookie" = 1)) ∧
  (w.cookieSet = false → countHeader w.raw.pending "Set-Cookie" = 0 ∧ w.raw.sent = none)

/-- Session produced by `Migrate` for a given input session and counter. -/
def migratedSession (sess : Session) (r : Nat) : Session :=
  Session.Put { sess with id := freshBytes r } "csrf_token" (SVal.vs (freshBytes (r + 1)))

/-! ## Theorems -/

theorem beBytes_length (k n : Nat) : (beBytes k n).length = k := by
  induction k generalizing n with
  | zero => rfl
  | succ k ih => simp [beBytes, ih]

theorem beBytes_lt (k n : Nat) : ∀ b ∈ beBytes k n, b < 256 := by
  induction k generalizing n with
  | zero => intro b hb; simp [beBytes] at hb
  | succ k ih =>
    intro b hb
    simp only [beBytes, List.mem_append, List.mem_singleton] at hb
    rcases hb with hb | hb
    · exact ih _ b hb
    · subst hb; exact Nat.mod_lt _ (by norm_num)

theorem sha256_length (msg : Bytes) : (sha256 msg).length = 32 := by
  simp [sha256, digestBytes, beBytes_length]

theorem sha256_lt (msg : Bytes) : ∀ b ∈ sha256 msg, b < 256 := by
  intro b hb
  simp only [sha256, digestBytes, List.mem_append] at hb
  rcases hb with ((((((hb | hb) | hb) | hb) | hb) | hb) | hb) | hb <;>
    exact beBytes_lt _ _ b hb

theorem hmacSHA256_length (key msg : Bytes) : (hmacSHA256 key msg).length = 32 :=
  sha256_length _

theorem hmacSHA256_lt (key msg : Bytes) : ∀ b ∈ hmacSHA256 key msg, b < 256 :=
  sha256_lt _

theorem charToSextet_sextetToChar : ∀ s, s < 64 → charToSextet (sextetToChar s) = some s := by
  decide

theorem sextetToChar_ne_pad : ∀ s, s < 64 → sextetToChar s ≠ 61 := by
  decide

theorem b64_roundtrip : ∀ bs : Bytes, (∀ b ∈ bs, b < 256) → b64decode (b64encode bs) = some bs
  | [], _ => by simp [b64encode, b64decode]
  | [b0], h => by
      have hb0 : b0 < 256 := h b0 (by simp)
      have h1 : b0 / 4 < 64 := by omega
      have h2 : b0 % 4 * 16 < 64 := by omega
      simp only [b64encode, b64decode, charToSextet_sextetToChar _ h1,
        charToSextet_sextetToChar _ h2]
      simp only [if_pos, and_self, ite_true, Option.some.injEq, List.cons.injEq, and_true]
      omega
  | [b0, b1], h => by
      have hb0 : b0 < 256 := h b0 (by simp)
      have hb1 : b1 < 256 := h b1 (by simp)
      have h1 : b0 / 4 < 64 := by omega
      have h2 : b0 % 4 * 16 + b1 / 16 < 64 := by omega
      have h3 : b1 % 16 * 4 < 64 := by omega
      simp only [b64encode, b64decode, charToSextet_sextetToChar _ h1,
        charToSextet_sextetToChar _ h2, charToSextet_sextetToChar _ h3]
      rw [if_neg (sextetToChar_ne_pad _ h3)]
      simp only [ite_true, Option.some.injEq, List.cons.injEq, and_true]
      refine ⟨by omega, by omega⟩
  | b0 :: b1 :: b2 :: rest, h => by
      have hb0 : b0 < 256 := h b0 (by simp)
      have hb1 : b1 < 256 := h b1 (by simp)
      have hb2 : b2 < 256 := h b2 (by simp)
      have h1 : b0 / 4 < 64 := by omega
      have h2 : b0 % 4 * 16 + b1 / 16 < 64 := by omega
      have h3 : b1 % 16 * 4 + b2 / 64 < 64 := by omega
      have h4 : b2 % 64 < 64 := by omega
      have ih : b64decode (b64encode rest) = some rest :=
        b64_roundtrip rest (fun b hb => h b (by simp [hb]))
      simp only [b64encode, b64decode, charToSextet_sextetToChar _ h1,
        charToSextet_sextetToChar _ h2, charToSextet_sextetToChar _ h3,
        charToSextet_sextetToChar _ h4]
      rw [if_neg (sextetToChar_ne_pad _ h3), if_neg (sextetToChar_ne_pad _ h4)]
      simp only [ih, Option.some.injEq, List.cons.injEq]
      refine ⟨by omega, by omega, by omega, trivial⟩

theorem writeSigned_ok (name id key : Bytes) (attrsLen : Nat) (enc : Bytes)
    (hw : writeSigned name id key attrsLen = .ok enc) :
    enc = b64encode (hmacSHA256 key (name ++ id) ++ id) := by
  unfold writeSigned cookieWrite at hw
  by_cases hlen :
      cookieStringLen name (b64encode (hmacSHA256 key (name ++ id) ++ id)) attrsLen > 4096
  · simp [hlen] at hw
  · simp only [hlen, ite_false, if_false] at hw
    cases hw
    rfl

theorem natToBytesLE_length (k n : Nat) : (natToBytesLE k n).length = k := by
  induction k generalizing n with
  | zero => rfl
  | succ k ih => simp [natToBytesLE, ih]

theorem natToBytesLE_lt (k n : Nat) : ∀ b ∈ natToBytesLE k n, b < 256 := by
  induction k generalizing n with
  | zero => intro b hb; simp [natToBytesLE] at hb
  | succ k ih =>
    intro b hb
    simp only [natToBytesLE, List.mem_cons] at hb
    rcases hb with hb | hb
    · subst hb; exact Nat.mod_lt _ (by norm_num)
    · exact ih _ b hb

theorem freshBytes_length (r : Nat) : (freshBytes r).length = 32 :=
  natToBytesLE_length 32 r

theorem freshBytes_ne_nil (r : Nat) : freshBytes r ≠ [] := by
  intro hcon
  have := freshBytes_length r
  rw [hcon] at this
  simp at this

theorem find?_filter_ne' {α β : Type} [BEq α] [LawfulBEq α]
    (st : List (α × β)) (sid k : α) (hk : k ≠ sid) :
    ((st.filter (fun p => !(p.1 == sid))).find? (fun p => p.1 == k)) =
      st.find? (fun p => p.1 == k) := by
  induction st with
  | nil => rfl
  | cons p st ih =>
    cases hsid : (p.1 == sid) with
    | true =>
      have hpk : (p.1 == k) = false := by
        have hps : p.1 = sid := by simpa using hsid
        simp [hps, Ne.symm hk]
      simp [List.filter_cons, hsid, List.find?, hpk, ih]
    | false =>
      cases hpk : (p.1 == k) with
      | true => simp [List.filter_cons, hsid, List.find?, hpk]
      | false => simp [List.filter_cons, hsid, List.find?, hpk, ih]

theorem find?_filter_self' {α β : Type} [BEq α] [LawfulBEq α]
    (st : List (α × β)) (id : α) :
    ((st.filter (fun p => !(p.1 == id))).find? (fun p => p.1 == id)) = none := by
  rw [List.find?_eq_none]
  intro p hp
  have hmem := (List.mem_filter.mp hp).2
  have hfalse : (p.1 == id) = false := by
    cases hpk : (p.1 == id) with
    | true => rw [hpk] at hmem; simp at hmem
    | false => rfl
  simp [hfalse]

theorem find?_filter_ne (st : Store) (sid k : Bytes) (hk : k ≠ sid) :
    ((st.filter (fun p => !(p.1 == sid))).find? (fun p => p.1 == k)) =
      st.find? (fun p => p.1 == k) :=
  find?_filter_ne' st sid k hk

theorem find?_filter_self (st : Store) (id : Bytes) :
    ((st.filter (fun p => !(p.1 == id))).find? (fun p => p.1 == id)) = none :=
  find?_filter_self' st id

theorem read_write_self (st : Store) (sess : Session) :
    SessionStore.read (SessionStore.write st sess) sess.id = .ok sess := by
  simp [SessionStore.read, SessionStore.write, List.find?]

theorem read_write_other (st : Store) (sess : Session) (k : Bytes) (hk : k ≠ sess.id) :
    SessionStore.read (SessionStore.write st sess) k = SessionStore.read st k := by
  simp only [SessionStore.read, SessionStore.write]
  have hne : (sess.id == k) = false := by
    simp only [beq_eq_false_iff_ne, ne_eq]
    exact fun hcon => hk hcon.symm
  rw [List.find?]
  simp only [hne, cond_false]
  rw [find?_filter_ne st sess.id k hk]

theorem read_destroy_self (st : Store) (id : Bytes) (st' : Store)
    (hd : SessionStore.destroy st id = .ok st') :
    SessionStore.read st' id = .error (.couldNotFind id) := by
  unfold SessionStore.destroy at hd
  by_cases hany : st.any (fun p => p.1 == id)
  · rw [if_pos hany] at hd
    cases hd
    unfold SessionStore.read
    rw [find?_filter_self]
  · rw [if_neg hany] at hd
    cases hd

theorem destroy_mem (st : Store) (p : Bytes × Session) (hp : p ∈ st) :
    ∃ st', SessionStore.destroy st p.1 = .ok st' := by
  unfold SessionStore.destroy
  have hany : st.any (fun q => q.1 == p.1) = true := by
    rw [List.any_eq_true]
    exact ⟨p, hp, by simp⟩
  rw [if_pos hany]
  exact ⟨_, rfl⟩

theorem read_ok_mem (st : Store) (id : Bytes) (sess : Session)
    (hr : SessionStore.read st id = .ok sess) : (id, sess) ∈ st := by
  unfold SessionStore.read at hr
  cases hfind : st.find? (fun p => p.1 == id) with
  | none => rw [hfind] at hr; cases hr
  | some p =>
    rw [hfind] at hr
    cases hr
    have hmem := List.mem_of_find?_eq_some hfind
    have hkey := List.find?_some hfind
    have hpk : p.1 = id := by simpa using hkey
    have hpair : p = (id, p.2) := by
      cases p with
      | mk a b => simpa using hpk
    rw [hpair] at hmem
    exact hmem

/-! ## Claim theorems -/

theorem mapGet_mapPut_self (d : List (String × SVal)) (k : String) (v : SVal) :
    mapGet (mapPut d k v) k = some v := by
  simp [mapGet, mapPut, List.find?]

theorem mapGet_mapPut_other (d : List (String × SVal)) (k k' : String) (v : SVal)
    (h : k' ≠ k) : mapGet (mapPut d k v) k' = mapGet d k' := by
  simp only [mapGet, mapPut]
  rw [List.find?]
  have hkk : (k == k') = false := by simp [Ne.symm h]
  simp only [hkk, cond_false]
  rw [find?_filter_ne' d k k' h]

theorem mapGet_mapDel_self (d : List (String × SVal)) (k : String) :
    mapGet (mapDel d k) k = none := by
  simp only [mapGet, mapDel]
  rw [find?_filter_self' d k]

theorem mapGet_mapDel_other (d : List (String × SVal)) (k k' : String)
    (h : k' ≠ k) : mapGet (mapDel d k) k' = mapGet d k' := by
  simp only [mapGet, mapDel]
  rw [find?_filter_ne' d k k' h]

theorem migrate_ok_dest (st : Store) (sess : Session) (r : Nat)
    (st' : Store) (sess' : Session) (r' : Nat)
    (hm : Migrate st sess r = .ok (st', sess', r')) :
    SessionStore.destroy st sess.id = .ok st' ∧
    sess' = migratedSession sess r ∧ r' = r + 2 := by
  unfold Migrate at hm
  cases hdest : SessionStore.destroy st sess.id with
  | error e => rw [hdest] at hm; cases hm
  | ok st2 =>
    rw [hdest] at hm
    simp only [Except.ok.injEq, Prod.mk.injEq] at hm
    obtain ⟨h1, h2, h3⟩ := hm
    exact ⟨by rw [h1], h2.symm, h3.symm⟩

/-- C4: `validate(session)` returns true exactly when neither the absolute
nor the idle expiration is exceeded; whenever it returns false it has
synchronously destroyed the session in the store (the returned store no
longer resolves the id); in particular an idle-expired session present in
the store fails `validate` and is absent afterward. -/
theorem validate_expiry_spec (m : SessionManager) (st : Store) (sess : Session) (now : Int) :
    (validate m st sess now = .ok (true, st) ↔
      now - sess.createdAt ≤ m.absoluteExpiration ∧
      now - sess.lastActivityAt ≤ m.idleExpiration) ∧
    (∀ st', validate m st sess now = .ok (false, st') →
      SessionStore.read st' sess.id = .error (.couldNotFind sess.id)) ∧
    (now - sess.lastActivityAt > m.idleExpiration →
      (sess.id, sess) ∈ st →
      ∃ st', validate m st sess now = .ok (false, st') ∧
        SessionStore.read st' sess.id = .error (.couldNotFind sess.id)) := by
  refine ⟨⟨?_, ?_⟩, ?_, ?_⟩
  · intro hv
    unfold validate at hv
    by_cases hcond : now - sess.createdAt > m.absoluteExpiration ∨
        now - sess.lastActivityAt > m.idleExpiration
    · rw [if_pos hcond] at hv
      cases hdest : SessionStore.destroy st sess.id with
      | error e => rw [hdest] at hv; cases hv
      | ok st2 => rw [hdest] at hv; simp at hv
    · constructor <;> omega
  · intro hcond
    unfold validate
    have hnot : ¬(now - sess.createdAt > m.absoluteExpiration ∨
        now - sess.lastActivityAt > m.idleExpiration) := by omega
    rw [if_neg hnot]
  · intro st' hv
    unfold validate at hv
    by_cases hcond : now - sess.createdAt > m.absoluteExpiration ∨
        now - sess.lastActivityAt > m.idleExpiration
    · rw [if_pos hcond] at hv
      cases hdest : SessionStore.destroy st sess.id with
      | error e => rw [hdest] at hv; cases hv
      | ok st2 =>
        rw [hdest] at hv
        have hst : st2 = st' := by simpa using hv
        exact hst ▸ read_destroy_self st sess.id st2 hdest
    · rw [if_neg hcond] at hv
      simp at hv
  · intro hidle hmem
    obtain ⟨st2, hdest⟩ := destroy_mem st (sess.id, sess) hmem
    refine ⟨st2, ?_, read_destroy_self st sess.id st2 hdest⟩
    unfold validate
    rw [if_pos (Or.inr hidle), hdest]

/-- Witness for C4: a session last active at time 0 with idle expiration
1000 fails `validate` at time 2000 and its id is gone from the store. -/
theorem validate_expiry_spec_check :
    ∃ st', validate exManager exStore exSession 2000 = .ok (false, st') ∧
      SessionStore.read st' exSession.id = .error (.couldNotFind exSession.id) :=
  (validate_expiry_spec exManager exStore exSession 2000).2.2 (by decide) (by decide)

/-- C9: the store sweep keeps exactly the entries that are neither
idle-expired nor age-expired: an entry survives `gc` precisely when it was
present and `now - lastActivityAt ≤ tti` and `now - createdAt ≤ ttl`. -/
theorem gc_removes_expired (st : Store) (now tti ttl : Int) (k : Bytes) (s : Session) :
    (k, s) ∈ SessionStore.gc st now tti ttl ↔
      ((k, s) ∈ st ∧
        ¬(now - s.lastActivityAt > tti ∨ now - s.createdAt > ttl)) := by
  unfold SessionStore.gc
  rw [List.mem_filter]
  simp

/-- Witness for C9: a fresh entry survives a sweep. -/
theorem gc_removes_expired_check :
    (exSession.id, exSession) ∈ SessionStore.gc exStore 0 1000 1000 :=
  (gc_removes_expired exStore 0 1000 1000 exSession.id exSession).mpr (by decide)

/-- C10: `Migrate` on a session whose id is not in the store returns the
destroy error before any mutation; in this value-passing model the caller's
session (id and csrf token un-rotated) and store are untouched, which is the
atomicity the claim states. -/
theorem migrate_nonexistent_error (st : Store) (sess : Session) (r : Nat)
    (habs : st.any (fun p => p.1 == sess.id) = false) :
    Migrate st sess r = .error (.cannotDestroyNonexistent sess.id) := by
  simp [Migrate, SessionStore.destroy, habs]

/-- Witness for C10: migrating against an empty store fails with the
destroy error. -/
theorem migrate_nonexistent_error_check :
    Migrate [] exSession 5 = .error (.cannotDestroyNonexistent exSession.id) :=
  migrate_nonexistent_error [] exSession 5 (by decide)

/-- C8: every session-layer operation yields sessions carrying a non-empty
string `csrf_token` and a boolean `authenticated` flag: minting establishes
the invariant, and `Migrate`, `Login`, `Logout` and `save` preserve it. -/
theorem session_data_invariant :
    (∀ now r, GoodSession (NewSession now r).1) ∧
    (∀ st sess r st' sess' r', GoodSession sess →
      Migrate st sess r = .ok (st', sess', r') → GoodSession sess') ∧
    (∀ st sess u r st' sess' r', GoodSession sess →
      Login st sess u r = .ok (st', sess', r') → GoodSession sess') ∧
    (∀ st sess r st' sess' r', GoodSession sess →
      Logout st sess r = .ok (st', sess', r') → GoodSession sess') ∧
    (∀ st sess now, GoodSession sess → GoodSession (save st sess now).1) := by
  have hnew : ∀ (now : Int) (r : Nat), GoodSession (NewSession now r).1 := by
    intro now r
    refine ⟨⟨freshBytes (r + 1), ?_, freshBytes_ne_nil (r + 1)⟩, false, ?_⟩
    · simp [NewSession, mapGet, List.find?]
    · simp [NewSession, mapGet, List.find?]
  have hmigsess : ∀ (sess : Session) (r : Nat), GoodSession sess →
      GoodSession (migratedSession sess r) := by
    intro sess r hg
    refine ⟨⟨freshBytes (r + 1), ?_, freshBytes_ne_nil (r + 1)⟩, ?_⟩
    · exact mapGet_mapPut_self _ _ _
    · obtain ⟨_, b, hb⟩ := hg
      exact ⟨b, by rw [migratedSession, Session.Put,
        mapGet_mapPut_other _ _ _ _ (by decide)]; exact hb⟩
  have hmig : ∀ st sess r st' sess' r', GoodSession sess →
      Migrate st sess r = .ok (st', sess', r') → GoodSession sess' := by
    intro st sess r st' sess' r' hg hm
    obtain ⟨-, hsess, -⟩ := migrate_ok_dest st sess r st' sess' r' hm
    rw [hsess]
    exact hmigsess sess r hg
  refine ⟨hnew, hmig, ?_, ?_, ?_⟩
  · intro st sess u r st' sess' r' hg hl
    unfold Login at hl
    cases hmig' : Migrate st sess r with
    | error e => rw [hmig'] at hl; cases hl
    | ok out =>
      rw [hmig'] at hl
      simp only [Except.ok.injEq, Prod.mk.injEq] at hl
      obtain ⟨h1, h2, h3⟩ := hl
      have hgood : GoodSession out.2.1 := hmig st sess r out.1 out.2.1 out.2.2 hg (by
        rw [hmig'])
      rw [← h2]
      refine ⟨?_, true, ?_⟩
      · obtain ⟨⟨t, ht, htne⟩, -⟩ := hgood
        refine ⟨t, ?_, htne⟩
        rw [Session.Put, Session.Put]
        show mapGet (mapPut (mapPut out.2.1.data "authenticated" (SVal.vb true))
          "username" (SVal.vs u)) "csrf_token" = some (SVal.vs t)
        rw [mapGet_mapPut_other _ _ _ _ (by decide),
          mapGet_mapPut_other _ _ _ _ (by decide)]
        exact ht
      · show mapGet (mapPut (mapPut out.2.1.data "authenticated" (SVal.vb true))
          "username" (SVal.vs u)) "authenticated" = some (SVal.vb true)
        rw [mapGet_mapPut_other _ _ _ _ (by decide), mapGet_mapPut_self]
  · intro st sess r st' sess' r' hg hl
    unfold Logout at hl
    cases hmig' : Migrate st sess r with
    | error e => rw [hmig'] at hl; cases hl
    | ok out =>
      rw [hmig'] at hl
      simp only [Except.ok.injEq, Prod.mk.injEq] at hl
      obtain ⟨h1, h2, h3⟩ := hl
      have hgood : GoodSession out.2.1 := hmig st sess r out.1 out.2.1 out.2.2 hg (by
        rw [hmig'])
      rw [← h2]
      refine ⟨?_, false, ?_⟩
      · obtain ⟨⟨t, ht, htne⟩, -⟩ := hgood
        refine ⟨t, ?_, htne⟩
        show mapGet (mapDel (mapPut out.2.1.data "authenticated" (SVal.vb false))
          "username") "csrf_token" = some (SVal.vs t)
        rw [mapGet_mapDel_other _ _ _ (by decide),
          mapGet_mapPut_other _ _ _ _ (by decide)]
        exact ht
      · show mapGet (mapDel (mapPut out.2.1.data "authenticated" (SVal.vb false))
          "username") "authenticated" = some (SVal.vb false)
        rw [mapGet_mapDel_other _ _ _ (by decide), mapGet_mapPut_self]
  · intro st sess now hg
    exact hg

/-- Witness for C8: the invariant holds on the session produced by a
concrete `Login`. -/
theorem session_data_invariant_check :
    GoodSession ((Login exStore exSession (strBytes "bob") 5).toOption.getD
      ([], exSession, 0)).2.1 :=
  session_data_invariant.2.2.1 exStore exSession (strBytes "bob") 5
    ((Login exStore exSession (strBytes "bob") 5).toOption.getD ([], exSession, 0)).1
    ((Login exStore exSession (strBytes "bob") 5).toOption.getD ([], exSession, 0)).2.1
    ((Login exStore exSession (strBytes "bob") 5).toOption.getD ([], exSession, 0)).2.2
    ⟨⟨freshBytes 91, by rfl, freshBytes_ne_nil 91⟩, true, by rfl⟩
    (by rfl)

/-- Counterexample for C2: `Migrate` alone does not put the session back in
the store under its new id — on a concrete store holding exactly the
migrated session, the old binding is destroyed and a read of the new id
fails, falsifying "remains fetchable from the store" before `save`. -/
theorem migrate_new_id_not_fetchable_cex :
    Migrate exStore exSession 5 = .ok ([], migratedSession exSession 5, 7) ∧
    SessionStore.read [] (migratedSession exSession 5).id =
      .error (.couldNotFind (freshBytes 5)) := by
  constructor <;> rfl

/-- C2 (amended): after a successful `migrate(session)` the old id no longer
resolves in the store; the session object keeps its `authenticated` and
`username` entries unchanged while `csrf_token` is replaced by the fresh
draw (so it changes whenever the fresh draw differs from the old token);
the session becomes fetchable from the store under its new id only once the
caller persists it via `save`, as `Migrate` itself expects. -/
theorem migrate_then_save_spec (st : Store) (sess : Session) (r : Nat) (now : Int)
    (st' : Store) (sess' : Session) (r' : Nat)
    (hm : Migrate st sess r = .ok (st', sess', r'))
    (hid : freshBytes r ≠ sess.id)
    (htok : mapGet sess.data "csrf_token" ≠ some (SVal.vs (freshBytes (r + 1)))) :
    SessionStore.read st' sess.id = .error (.couldNotFind sess.id) ∧
    sess'.id = freshBytes r ∧
    mapGet sess'.data "authenticated" = mapGet sess.data "authenticated" ∧
    mapGet sess'.data "username" = mapGet sess.data "username" ∧
    mapGet sess'.data "csrf_token" = some (SVal.vs (freshBytes (r + 1))) ∧
    mapGet sess'.data "csrf_token" ≠ mapGet sess.data "csrf_token" ∧
    SessionStore.read (save st' sess' now).2 sess.id =
      .error (.couldNotFind sess.id) ∧
    SessionStore.read (save st' sess' now).2 sess'.id = .ok (save st' sess' now).1 := by
  obtain ⟨hdest, hsess, -⟩ := migrate_ok_dest st sess r st' sess' r' hm
  have hold : SessionStore.read st' sess.id = .error (.couldNotFind sess.id) :=
    read_destroy_self st sess.id st' hdest
  have hids : sess'.id = freshBytes r := by rw [hsess]; rfl
  have hauth : mapGet sess'.data "authenticated" = mapGet sess.data "authenticated" := by
    rw [hsess]
    exact mapGet_mapPut_other _ _ _ _ (by decide)
  have huser : mapGet sess'.data "username" = mapGet sess.data "username" := by
    rw [hsess]
    exact mapGet_mapPut_other _ _ _ _ (by decide)
  have htok' : mapGet sess'.data "csrf_token" = some (SVal.vs (freshBytes (r + 1))) := by
    rw [hsess]
    exact mapGet_mapPut_self _ _ _
  have hsaveid : (save st' sess' now).1.id = sess'.id := rfl
  refine ⟨hold, hids, hauth, huser, htok', ?_, ?_, ?_⟩
  · rw [htok']
    exact fun hcon => htok hcon.symm
  · have hne : sess.id ≠ (save st' sess' now).1.id := by
      rw [hsaveid, hids]
      exact fun hcon => hid hcon.symm
    calc SessionStore.read (save st' sess' now).2 sess.id
        = SessionStore.read st' sess.id := read_write_other st' _ sess.id hne
      _ = .error (.couldNotFind sess.id) := hold
  · have := read_write_self st' { sess' with lastActivityAt := now }
    exact this

/-- Witness for C2 (amended): on the concrete fixture, after `Migrate` and
`save` the new id resolves to the saved session. -/
theorem migrate_then_save_spec_check :
    SessionStore.read (save [] (migratedSession exSession 5) 50).2
        (migratedSession exSession 5).id =
      .ok (save [] (migratedSession exSession 5) 50).1 :=
  (migrate_then_save_spec exStore exSession 5 50 [] (migratedSession exSession 5) 7
    (by rfl) (by decide) (by decide)).2.2.2.2.2.2.2

/-- C5: `start` never rejects: whatever the cookie, the store (satisfying
the key invariant) and the clock, it yields a session — either the stored
one on a verified cookie, store hit and passed validation (`Active`), or a
fresh mint with a fresh id, `authenticated=false`, a fresh CSRF token and
both timestamps now (`Minted`). -/
theorem start_resolution_spec (m : SessionManager) (st : Store) (cookie : Option Bytes)
    (now : Int) (r : Nat) (hinv : StoreInv st) :
    ∃ sess st' r', start m st cookie now r = .ok (sess, st', r') ∧
      ((∃ v, readSigned m.cookieName cookie m.secretKey = .ok v ∧
             SessionStore.read st v = .ok sess ∧
             validate m st sess now = .ok (true, st') ∧ r' = r) ∨
       (sess.id = freshBytes r ∧
        mapGet sess.data "authenticated" = some (SVal.vb false) ∧
        mapGet sess.data "csrf_token" = some (SVal.vs (freshBytes (r + 1))) ∧
        sess.createdAt = now ∧ sess.lastActivityAt = now ∧ r' = r + 2)) := by
  have hminted : ∀ stx : Store,
      ((NewSession now r).1.id = freshBytes r ∧
       mapGet (NewSession now r).1.data "authenticated" = some (SVal.vb false) ∧
       mapGet (NewSession now r).1.data "csrf_token" =
         some (SVal.vs (freshBytes (r + 1))) ∧
       (NewSession now r).1.createdAt = now ∧
       (NewSession now r).1.lastActivityAt = now ∧ (NewSession now r).2 = r + 2) := by
    intro _
    refine ⟨rfl, ?_, ?_, rfl, rfl, rfl⟩
    · simp [NewSession, mapGet, List.find?]
    · simp [NewSession, mapGet, List.find?]
  cases hread : readSigned m.cookieName cookie m.secretKey with
  | error e =>
    refine ⟨(NewSession now r).1, st, (NewSession now r).2, ?_, Or.inr (hminted st)⟩
    simp only [start, hread]
  | ok v =>
    cases hsr : SessionStore.read st v with
    | error e =>
      refine ⟨(NewSession now r).1, st, (NewSession now r).2, ?_, Or.inr (hminted st)⟩
      simp only [start, hread, hsr]
    | ok sess =>
      have hmem : (v, sess) ∈ st := read_ok_mem st v sess hsr
      have hvid : v = sess.id := hinv (v, sess) hmem
      by_cases hcond : now - sess.createdAt > m.absoluteExpiration ∨
          now - sess.lastActivityAt > m.idleExpiration
      · obtain ⟨st2, hdest⟩ := destroy_mem st (v, sess) hmem
        have hdest' : SessionStore.destroy st sess.id = .ok st2 := by
          rw [← hvid]; exact hdest
        have hval : validate m st sess now = .ok (false, st2) := by
          unfold validate
          rw [if_pos hcond, hdest']
        refine ⟨(NewSession now r).1, st2, (NewSession now r).2, ?_, Or.inr (hminted st2)⟩
        simp only [start, hread, hsr, hval]
      · have hval : validate m st sess now = .ok (true, st) := by
          unfold validate
          rw [if_neg hcond]
        refine ⟨sess, st, r, ?_, Or.inl ⟨v, rfl, hsr, hval, rfl⟩⟩
        simp only [start, hread, hsr, hval]

/-- C6: reading back a signed cookie written with the same name and key
returns exactly the original raw value whenever the write succeeded. -/
theorem signed_cookie_roundtrip (name id key : Bytes) (attrsLen : Nat) (enc : Bytes)
    (hid : ∀ b ∈ id, b < 256)
    (hw : writeSigned name id key attrsLen = .ok enc) :
    readSigned name (some enc) key = .ok id := by
  have henc := writeSigned_ok name id key attrsLen enc hw
  subst henc
  have hbound : ∀ b ∈ hmacSHA256 key (name ++ id) ++ id, b < 256 := by
    intro b hb
    rcases List.mem_append.mp hb with hb | hb
    · exact hmacSHA256_lt _ _ b hb
    · exact hid b hb
  have hdec := b64_roundtrip _ hbound
  have hlen32 := hmacSHA256_length key (name ++ id)
  have hlenfull : (hmacSHA256 key (name ++ id) ++ id).length = 32 + id.length := by
    rw [List.length_append, hlen32]
  have htake : (hmacSHA256 key (name ++ id) ++ id).take 32 = hmacSHA256 key (name ++ id) := by
    rw [← hlen32]
    exact List.take_left _ _
  have hdrop : (hmacSHA256 key (name ++ id) ++ id).drop 32 = id := by
    rw [← hlen32]
    exact List.drop_left _ _
  simp only [readSigned, cookieRead, hdec]
  rw [hlenfull, if_neg (by omega), htake, hdrop, if_neg (by simp)]

/-- Witness for C6: the concrete session id round-trips through the codec
under the concrete secret key. -/
theorem signed_cookie_roundtrip_check :
    readSigned (strBytes "session")
        (some (b64encode (hmacSHA256 (strBytes "super-secret-key")
          (strBytes "session" ++ freshBytes 90) ++ freshBytes 90)))
        (strBytes "super-secret-key") = .ok (freshBytes 90) :=
  signed_cookie_roundtrip (strBytes "session") (freshBytes 90) (strBytes "super-secret-key")
    60 _ (by decide) (by rfl)

/-- C7: for a present cookie value, the signed read fails only with
`InvalidValue`, and does so exactly when base64url decoding fails, the
decoded value is shorter than the 32-byte signature, or the received
signature is not the HMAC-SHA256 of name-then-payload. -/
theorem readSigned_error_charact (name text key : Bytes) :
    ((∀ e, readSigned name (some text) key = .error e → e = CookieErr.invalidValue) ∧
     (readSigned name (some text) key = .error CookieErr.invalidValue ↔
       b64decode text = none ∨
       ∃ v, b64decode text = some v ∧
         (v.length < 32 ∨ v.take 32 ≠ hmacSHA256 key (name ++ v.drop 32)))) ∧
    (∀ v a e, writeSigned name v key a = .error e → e = CookieErr.valueTooLong) := by
  refine ⟨?_, ?_⟩
  case refine_2 =>
    intro v a e he
    unfold writeSigned cookieWrite at he
    by_cases hlen :
        cookieStringLen name (b64encode (hmacSHA256 key (name ++ v) ++ v)) a > 4096
    · rw [if_pos hlen] at he
      simpa using he.symm
    · rw [if_neg hlen] at he
      cases he
  case refine_1 =>
    cases hdec : b64decode text with
    | none =>
      simp only [readSigned, cookieRead, hdec]
      constructor
      · intro e he
        simpa using he.symm
      · simp
    | some v =>
      simp only [readSigned, cookieRead, hdec]
      by_cases hlen : v.length < 32
      · rw [if_pos hlen]
        constructor
        · intro e he
          simpa using he.symm
        · exact ⟨fun _ => Or.inr ⟨v, rfl, Or.inl hlen⟩, fun _ => rfl⟩
      · rw [if_neg hlen]
        by_cases hsig : v.take 32 ≠ hmacSHA256 key (name ++ v.drop 32)
        · rw [if_pos hsig]
          constructor
          · intro e he
            simpa using he.symm
          · exact ⟨fun _ => Or.inr ⟨v, rfl, Or.inr hsig⟩, fun _ => rfl⟩
        · rw [if_neg hsig]
          constructor
          · intro e he
            cases he
          · constructor
            · intro hcon
              cases hcon
            · rintro (hnone | ⟨v', hv', hcond⟩)
              · cases hnone
              · cases hv'
                rcases hcond with hc | hc
                · exact absurd hc hlen
                · exact absurd hc hsig

/-- Witness for C7: a one-byte cookie text fails base64url decoding, and the
read reports `InvalidValue`. -/
theorem readSigned_error_charact_check :
    readSigned (strBytes "session") (some [0]) (strBytes "super-secret-key") =
      .error CookieErr.invalidValue :=
  (readSigned_error_charact (strBytes "session") [0]
    (strBytes "super-secret-key")).1.2.mpr (Or.inl (by rfl))

theorem countHeader_append (hs1 hs2 : List (String × Bytes)) (k : String) :
    countHeader (hs1 ++ hs2) k = countHeader hs1 k + countHeader hs2 k := by
  simp [countHeader, List.filter_append]

theorem countHeader_single_self (k : String) (v : Bytes) :
    countHeader [(k, v)] k = 1 := by
  simp [countHeader]

theorem flush_preserve (resp : RawResponse) (code : Nat)
    (hp : countHeader resp.pending "Set-Cookie" = 1)
    (hsent : ∀ hs c, resp.sent = some (hs, c) → countHeader hs "Set-Cookie" = 1) :
    countHeader (flushHeaders resp code).pending "Set-Cookie" = 1 ∧
    (∀ hs c, (flushHeaders resp code).sent = some (hs, c) →
      countHeader hs "Set-Cookie" = 1) := by
  unfold flushHeaders
  cases hres : resp.sent with
  | some pr =>
    refine ⟨hp, ?_⟩
    intro hs c hsc
    exact hsent hs c (hres ▸ hsc)
  | none =>
    refine ⟨hp, ?_⟩
    intro hs c hsc
    simp only [Option.some.injEq, Prod.mk.injEq] at hsc
    rw [← hsc.1]
    exact hp

theorem writeCookieOnce_inv (m : SessionManager) (sess : Session) (w w' : SessionWriter)
    (hinv : swInv w) (h : writeCookieOnce m sess w = .ok w') :
    swInv w' ∧ w'.cookieSet = true := by
  unfold writeCookieOnce at h
  by_cases hcs : w.cookieSet
  · rw [if_pos hcs] at h
    cases h
    exact ⟨hinv, hcs⟩
  · rw [if_neg hcs] at h
    cases hwc : WriteCookie m sess w.raw with
    | error e => rw [hwc] at h; cases h
    | ok raw2 =>
      rw [hwc] at h
      cases h
      have hfalse := hinv.2 (by simpa using hcs)
      unfold WriteCookie at hwc
      cases hws : writeSigned m.cookieName sess.id m.secretKey m.attrsLen with
      | error e => rw [hws] at hwc; cases hwc
      | ok enc =>
        rw [hws] at hwc
        have hraw : raw2 = addHeader w.raw "Set-Cookie" enc := by
          have := hwc
          simp only [Except.ok.injEq] at this
          exact this.symm
        subst hraw
        refine ⟨⟨?_, ?_⟩, rfl⟩
        · intro _
          constructor
          · show countHeader (w.raw.pending ++ [("Set-Cookie", enc)]) "Set-Cookie" = 1
            rw [countHeader_append, hfalse.1, countHeader_single_self]
          · intro hs code hsc
            have hnone : (addHeader w.raw "Set-Cookie" enc).sent = none := hfalse.2
            rw [hnone] at hsc
            cases hsc
        · intro hcon
          cases hcon

theorem handler_event_inv (m : SessionManager) (sess : Session) (w w' : SessionWriter)
    (e : HEvent) (hinv : swInv w)
    (h : handlerStep m sess w e = .ok w') :
    swInv w' := by
  cases e with
  | hWrite =>
    unfold handlerStep SessionWriter.Write at h
    cases hco : writeCookieOnce m sess w with
    | error e2 => rw [hco] at h; cases h
    | ok w1 =>
      rw [hco] at h
      cases h
      obtain ⟨hinv1, hcs1⟩ := writeCookieOnce_inv m sess w w1 hinv hco
      obtain ⟨hp1, hs1⟩ := hinv1.1 hcs1
      have hfl := flush_preserve w1.raw 200 hp1 hs1
      refine ⟨?_, ?_⟩
      · intro _
        exact ⟨hfl.1, hfl.2⟩
      · intro hcon
        rw [hcs1] at hcon
        cases hcon
  | hWriteHeader code =>
    unfold handlerStep SessionWriter.WriteHeader at h
    cases hco : writeCookieOnce m sess w with
    | error e2 => rw [hco] at h; cases h
    | ok w1 =>
      rw [hco] at h
      cases h
      obtain ⟨hinv1, hcs1⟩ := writeCookieOnce_inv m sess w w1 hinv hco
      obtain ⟨hp1, hs1⟩ := hinv1.1 hcs1
      have hfl := flush_preserve w1.raw code hp1 hs1
      refine ⟨?_, ?_⟩
      · intro _
        exact ⟨hfl.1, hfl.2⟩
      · intro hcon
        rw [hcs1] at hcon
        cases hcon

theorem handler_event_keeps_flag (m : SessionManager) (sess : Session)
    (w w' : SessionWriter) (e : HEvent)
    (h : handlerStep m sess w e = .ok w') :
    w'.cookieSet = true := by
  cases e with
  | hWrite =>
    unfold handlerStep SessionWriter.Write at h
    cases hco : writeCookieOnce m sess w with
    | error e2 => rw [hco] at h; cases h
    | ok w1 =>
      rw [hco] at h
      cases h
      show w1.cookieSet = true
      unfold writeCookieOnce at hco
      by_cases hcs : w.cookieSet
      · rw [if_pos hcs] at hco; cases hco; exact hcs
      · rw [if_neg hcs] at hco
        cases hwc : WriteCookie m sess w.raw with
        | error e3 => rw [hwc] at hco; cases hco
        | ok raw2 => rw [hwc] at hco; cases hco; rfl
  | hWriteHeader code =>
    unfold handlerStep SessionWriter.WriteHeader at h
    cases hco : writeCookieOnce m sess w with
    | error e2 => rw [hco] at h; cases h
    | ok w1 =>
      rw [hco] at h
      cases h
      show w1.cookieSet = true
      unfold writeCookieOnce at hco
      by_cases hcs : w.cookieSet
      · rw [if_pos hcs] at hco; cases hco; exact hcs
      · rw [if_neg hcs] at hco
        cases hwc : WriteCookie m sess w.raw with
        | error e3 => rw [hwc] at hco; cases hco
        | ok raw2 => rw [hwc] at hco; cases hco; rfl

theorem runHandler_inv (m : SessionManager) (sess : Session) :
    ∀ (evs : List HEvent) (w w' : SessionWriter), swInv w →
      runHandler m sess evs w = .ok w' → swInv w'
  | [], w, w', hinv, h => by
      unfold runHandler at h
      cases h
      exact hinv
  | e :: es, w, w', hinv, h => by
      unfold runHandler at h
      cases hstep : handlerStep m sess w e with
      | error err => rw [hstep] at h; cases h
      | ok w1 =>
        rw [hstep] at h
        exact runHandler_inv m sess es w1 w'
          (handler_event_inv m sess w w1 e hinv hstep) h

theorem flush_sent_isSome (resp : RawResponse) (code : Nat) :
    ∃ hs c, (flushHeaders resp code).sent = some (hs, c) := by
  unfold flushHeaders
  cases hres : resp.sent with
  | some pr => exact ⟨pr.1, pr.2, by rw [hres]⟩
  | none => exact ⟨resp.pending, code, rfl⟩

theorem sentHeaders_eq (resp : RawResponse) (hs : List (String × Bytes)) (c : Nat)
    (h : resp.sent = some (hs, c)) : sentHeaders resp = hs := by
  unfold sentHeaders
  rw [h]

theorem flush_of_none (resp : RawResponse) (code : Nat) (h : resp.sent = none) :
    (flushHeaders resp code).sent = some (resp.pending, code) := by
  unfold flushHeaders
  rw [h]

theorem initialWriter_inv (tok : Bytes) : swInv (initialWriter tok) := by
  constructor
  · intro hcon
    cases hcon
  · intro _
    refine ⟨?_, rfl⟩
    simp [initialWriter, countHeader, setHeader, addHeader, emptyResponse, List.filter]

/-- C3: on every run of the middleware in which the handler is reached, the
final response carries exactly one `Set-Cookie` header — however many times
the handler writes (directly or via `WriteHeader`), including not at all. -/
theorem set_cookie_exactly_once (m : SessionManager) (st : Store) (req : Request)
    (handler : List HEvent) (now : Int) (r : Nat) (out : MwOut)
    (hrun : Middleware m st req handler now r = .ok out)
    (hcalled : out.handlerCalled = true) :
    countHeader (sentHeaders out.resp) "Set-Cookie" = 1 := by
  cases hstart : start m st req.cookie now r with
  | error e =>
    simp only [Middleware, hstart] at hrun
    cases hrun
  | ok res =>
    obtain ⟨sess, st1, r1⟩ := res
    simp only [Middleware, hstart] at hrun
    by_cases hrej : isUnsafeMethod req.method ∧ verifyCSRFToken sess req = false
    · rw [if_pos hrej] at hrun
      have hout : out.handlerCalled = false := by
        simp only [Except.ok.injEq] at hrun
        rw [← hrun]
      rw [hout] at hcalled
      cases hcalled
    · rw [if_neg hrej] at hrun
      cases hget : Session.Get sess "csrf_token" with
      | none => simp only [hget] at hrun; cases hrun
      | some sv =>
        cases sv with
        | vb b => simp only [hget] at hrun; cases hrun
        | vs tok =>
          simp only [hget] at hrun
          cases hrunH : runHandler m sess handler (initialWriter tok) with
          | error e2 => simp only [hrunH] at hrun; cases hrun
          | ok w1 =>
            simp only [hrunH] at hrun
            have hinv1 := runHandler_inv m sess handler (initialWriter tok) w1
              (initialWriter_inv tok) hrunH
            by_cases hcs : w1.cookieSet
            · rw [if_pos hcs] at hrun
              have hresp : out.resp = finalizeResponse w1.raw := by
                simp only [Except.ok.injEq] at hrun
                rw [← hrun]
              obtain ⟨hp1, hs1⟩ := hinv1.1 hcs
              have hfl := flush_preserve w1.raw 200 hp1 hs1
              obtain ⟨hs2, c2, hsc⟩ := flush_sent_isSome w1.raw 200
              rw [hresp]
              unfold finalizeResponse
              rw [sentHeaders_eq _ _ _ hsc]
              exact hfl.2 hs2 c2 hsc
            · rw [if_neg hcs] at hrun
              cases hwc : WriteCookie m sess w1.raw with
              | error e3 => simp only [hwc] at hrun; cases hrun
              | ok raw2 =>
                simp only [hwc] at hrun
                have hresp : out.resp = finalizeResponse raw2 := by
                  simp only [Except.ok.injEq] at hrun
                  rw [← hrun]
                have hfalse := hinv1.2 (by simpa using hcs)
                unfold WriteCookie at hwc
                cases hws : writeSigned m.cookieName sess.id m.secretKey m.attrsLen with
                | error e4 => rw [hws] at hwc; cases hwc
                | ok enc =>
                  rw [hws] at hwc
                  have hraw : raw2 = addHeader w1.raw "Set-Cookie" enc := by
                    simp only [Except.ok.injEq] at hwc
                    rw [← hwc]
                  subst hraw
                  have hpend : countHeader (addHeader w1.raw "Set-Cookie" enc).pending
                      "Set-Cookie" = 1 := by
                    show countHeader (w1.raw.pending ++ [("Set-Cookie", enc)])
                      "Set-Cookie" = 1
                    rw [countHeader_append, hfalse.1, countHeader_single_self]
                  have hnone : (addHeader w1.raw "Set-Cookie" enc).sent = none := hfalse.2
                  have hsc := flush_of_none (addHeader w1.raw "Set-Cookie" enc) 200 hnone
                  rw [hresp]
                  unfold finalizeResponse
                  rw [sentHeaders_eq _ _ _ hsc]
                  exact hpend

/-- Witness for C3: a concrete run whose handler writes three times emits
exactly one `Set-Cookie`. -/
theorem set_cookie_exactly_once_check :
    countHeader (sentHeaders mw3out.resp) "Set-Cookie" = 1 :=
  set_cookie_exactly_once exManager [] exGetReq
    [HEvent.hWrite, HEvent.hWrite, HEvent.hWrite] 0 0 mw3out (by rfl) (by rfl)

/-- Counterexample for C1: on a concrete POST whose submitted token does not
match the session's token, the middleware answers 403 without calling the
handler, but the response carries no `Set-Cookie` at all — the session-save
and cookie-write phase is skipped, falsifying the claimed
"exactly one valid Set-Cookie" on the CSRF-reject path. -/
theorem csrf_reject_no_cookie_cex :
    Middleware exManager [] exPostReq [HEvent.hWrite] 0 0 = .ok
      { resp := finalizeResponse (httpError emptyResponse 403), handlerCalled := false,
        sess := (NewSession 0 0).1, store := [], rng := 2 } ∧
    countHeader
      (sentHeaders (finalizeResponse (httpError emptyResponse 403))) "Set-Cookie" = 0 ∧
    sentStatus (finalizeResponse (httpError emptyResponse 403)) = some 403 := by
  refine ⟨by rfl, by rfl, by rfl⟩

/-- C1 (amended): for every unsafe-method request whose submitted CSRF token
does not match the session's stored token, the middleware responds 403
without calling the handler, and the session-save and cookie-write phase
does not run: the response carries no `Set-Cookie` header and the store is
left exactly as `start` left it. -/
theorem csrf_reject_spec (m : SessionManager) (st : Store) (req : Request)
    (handler : List HEvent) (now : Int) (r : Nat)
    (sess : Session) (st1 : Store) (r1 : Nat)
    (hstart : start m st req.cookie now r = .ok (sess, st1, r1))
    (hmethodU : isUnsafeMethod req.method = true)
    (hmis : verifyCSRFToken sess req = false) :
    Middleware m st req handler now r = .ok
      { resp := finalizeResponse (httpError emptyResponse 403), handlerCalled := false,
        sess := sess, store := st1, rng := r1 } ∧
    sentStatus (finalizeResponse (httpError emptyResponse 403)) = some 403 ∧
    countHeader
      (sentHeaders (finalizeResponse (httpError emptyResponse 403))) "Set-Cookie" = 0 := by
  refine ⟨?_, by rfl, by rfl⟩
  simp only [Middleware, hstart]
  rw [if_pos ⟨by rw [hmethodU], hmis⟩]

/-- Witness for C1 (amended): the concrete CSRF-rejected POST yields the 403
response with the store as `start` left it. -/
theorem csrf_reject_spec_check :
    Middleware exManager [] exPostReq [] 0 0 = .ok
      { resp := finalizeResponse (httpError emptyResponse 403), handlerCalled := false,
        sess := (NewSession 0 0).1, store := [], rng := 2 } :=
  (csrf_reject_spec exManager [] exPostReq [] 0 0 (NewSession 0 0).1 [] 2
    (by rfl) (by rfl) (by rfl)).1

/-- Witness for C5: `start` with no cookie against the empty store mints. -/
theorem start_resolution_spec_check :
    ∃ sess st' r', start exManager [] none 0 0 = .ok (sess, st', r') ∧
      ((∃ v, readSigned exManager.cookieName none exManager.secretKey = .ok v ∧
             SessionStore.read [] v = .ok sess ∧
             validate exManager [] sess 0 = .ok (true, st') ∧ r' = 0) ∨
       (sess.id = freshBytes 0 ∧
        mapGet sess.data "authenticated" = some (SVal.vb false) ∧
        mapGet sess.data "csrf_token" = some (SVal.vs (freshBytes 1)) ∧
        sess.createdAt = 0 ∧ sess.lastActivityAt = 0 ∧ r' = 0 + 2)) :=
  start_resolution_spec exManager [] none 0 0 (fun p hp => absurd hp (List.not_mem_nil p))

end Ntumiwa
